import Mathlib

/-!
# Stream reclassification in `biz/domain/model/innospark.go`

A shallow embedding of `InnosparkChatModel.Generate`, `Stream`, `process` and
`deepThinkProcess`, and theorems about them.

Modelling choices.

* A Go `string` is a Lean `String`.  The byte test `msg.Content[0] == '<'`
  is the test that the first character is `<` (an ASCII byte never occurs
  inside a multi-byte UTF-8 sequence).
* A `*schema.Message` received from the upstream reader is a value of
  `Message`: its content, its name, and the value stored under the key
  `cst.EventMessageContentType` of its `Extra` map.
* The upstream `StreamReader` is a finite list of fragments followed by the
  error that `Recv` returns once they are exhausted (`io.EOF` at a normal end
  of stream).
* `ctx.Done()` is observed through an oracle `cancel : Nat → Bool`, asked once
  per loop iteration (the iteration number is its argument).
* What a runner does is recorded as a list of `Event`s, in program order.
* The constants of package `cst` are not part of the sources; the four marker
  literals are the fields of `Markers`.
-/

namespace Innospark

/-! ## Data model -/

/-- The three values `cst.EventMessageContentTypeText`, `...Suggest`, `...Think`. -/
inductive Category where
  | text
  | suggest
  | think
  deriving DecidableEq, Repr

/-- A streamed message fragment. -/
structure Message where
  content : String
  name : String
  contentType : Option Category
  deriving DecidableEq, Repr

/-- The marker literals `cst.SuggestStart`, `cst.SuggestEnd`, `cst.ThinkStart`, `cst.ThinkEnd`. -/
structure Markers where
  suggestStart : String
  suggestEnd : String
  thinkStart : String
  thinkEnd : String
  deriving DecidableEq, Repr

/-- An error value returned by `Recv`. -/
inductive RecvError where
  | eof
  | other (msg : String)
  deriving DecidableEq, Repr

/-- The upstream reader: the fragments `Recv` yields, then the error it fails with. -/
structure Upstream where
  frags : List Message
  fail : RecvError
  deriving DecidableEq, Repr

/-- What a runner does, in program order. -/
inductive Event where
  | recv
  | send (m : Message)
  | sendErr (e : RecvError)
  | writerClose
  | readerClose
  deriving DecidableEq, Repr

/-- Modelled from the spec: `util.AddExtra(msg, cst.EventMessageContentType, status)`, whose
source is not available; it writes the category into the fragment's annotation and leaves the
rest of the fragment unchanged. -/
def AddExtra (msg : Message) (status : Category) : Message :=
  { msg with contentType := some status }

/-! ## `process` -/

/-- One pass through the `default:` branch of the loop of `process` after a successful `Recv`:
the new `status` and the fragments sent. -/
def processIter (mk : Markers) (status : Category) (msg : Message) : Category × List Event :=
  if msg.content = mk.suggestStart then (Category.suggest, [])
  else if msg.content = mk.suggestEnd then (Category.text, [])
  else (status, [Event.send (AddExtra msg status)])

/-- The `for` loop of `process`, from iteration `i` with loop variable `status`. -/
def processLoop (mk : Markers) (cancel : Nat → Bool) :
    Nat → Category → List Message → RecvError → List Event
  | i, _, [], e => if cancel i then [] else [Event.recv, Event.sendErr e]
  | i, status, msg :: rest, e =>
    if cancel i then []
    else
      Event.recv :: ((processIter mk status msg).2 ++
        processLoop mk cancel (i + 1) (processIter mk status msg).1 rest e)

/-- The runner `process`: the loop, then the deferred `writer.Close()` and `reader.Close()`. -/
def process (mk : Markers) (cancel : Nat → Bool) (up : Upstream) : List Event :=
  processLoop mk cancel 0 Category.text up.frags up.fail ++ [Event.writerClose, Event.readerClose]

/-! ## `deepThinkProcess` -/

/-- The function `trimRightByte` of package `strings`: drop the trailing bytes equal to `c`. -/
def trimRightByte (s : List Char) (c : Char) : List Char :=
  (s.reverse.dropWhile (fun x => x == c)).reverse

/-- The function `trimLeftByte` of package `strings`: drop the leading bytes equal to `c`. -/
def trimLeftByte (s : List Char) (c : Char) : List Char :=
  s.dropWhile (fun x => x == c)

/-- The call `strings.Trim(s, cutset)` for a cutset of one ASCII character `c`, which the library
computes as `trimLeftByte(trimRightByte(s, c), c)`. -/
def Trim (s : String) (c : Char) : String :=
  ⟨trimLeftByte (trimRightByte s.data c) c⟩

/-- The test `len(msg.Content) > 0 && msg.Content[0] == '<'`. -/
def beginsWithLt (s : String) : Bool :=
  match s.data with
  | [] => false
  | c :: _ => c == '<'

/-- The loop variables `pass`, `collect` and `status` of `deepThinkProcess`. -/
structure DeepThinkState where
  pass : Nat
  collect : String
  status : Category
  deriving DecidableEq, Repr

/-- The `switch strings.Trim(collect, "\n")` statement of `deepThinkProcess`. -/
def deepThinkSwitch (mk : Markers) (st : DeepThinkState) : DeepThinkState :=
  if Trim st.collect '\n' = mk.thinkStart then
    { st with collect := "", status := Category.think }
  else if Trim st.collect '\n' = mk.thinkEnd then
    { st with collect := "", status := Category.text }
  else st

/-- One pass through the `default:` branch of the loop of `deepThinkProcess` after a successful
`Recv`: the new loop variables and the fragments sent. -/
def deepThinkIter (mk : Markers) (st : DeepThinkState) (msg : Message) :
    DeepThinkState × List Event :=
  if st.pass > 0 then
    ({ st with pass := st.pass - 1, collect := st.collect ++ msg.content }, [])
  else if beginsWithLt msg.content then
    ({ st with pass := 2, collect := msg.content }, [])
  else
    let st1 := deepThinkSwitch mk st
    let msg1 : Message :=
      if st1.collect ≠ "" then { msg with content := st1.collect ++ msg.content } else msg
    (st1, [Event.send (AddExtra msg1 st1.status)])

/-- The `for` loop of `deepThinkProcess`, from iteration `i` with loop variables `st`. -/
def deepThinkLoop (mk : Markers) (cancel : Nat → Bool) :
    Nat → DeepThinkState → List Message → RecvError → List Event
  | i, _, [], e => if cancel i then [] else [Event.recv, Event.sendErr e]
  | i, st, msg :: rest, e =>
    if cancel i then []
    else
      Event.recv :: ((deepThinkIter mk st msg).2 ++
        deepThinkLoop mk cancel (i + 1) (deepThinkIter mk st msg).1 rest e)

/-- The values of `pass`, `collect` and `status` when `deepThinkProcess` enters its loop. -/
def deepThinkInit : DeepThinkState :=
  { pass := 0, collect := "", status := Category.text }

/-- The runner `deepThinkProcess`: the loop, then the deferred `writer.Close()` and
`reader.Close()`. -/
def deepThinkProcess (mk : Markers) (cancel : Nat → Bool) (up : Upstream) : List Event :=
  deepThinkLoop mk cancel 0 deepThinkInit up.frags up.fail ++
    [Event.writerClose, Event.readerClose]

/-! ## `Generate` and `Stream`: the message list handed to the client -/

/-- A `*schema.Message` of the input slice. -/
abbrev Ptr := Nat

/-- The messages the pointers refer to. -/
abbrev Heap := Ptr → Message

/-- The loop `for i := len(in) - 1; i >= 0; i--` of `Generate`; the first argument is `i + 1`
and the last one the slice `reverse` built so far. -/
def GenerateLoop (h : Heap) (inp : List Ptr) : Nat → List Ptr → List Ptr
  | 0, reverse => reverse
  | i + 1, reverse =>
    match inp.get? i with
    | some p =>
      if (h p).content ≠ "" then GenerateLoop h inp i (reverse ++ [p])
      else GenerateLoop h inp i reverse
    | none => reverse

/-- The slice `reverse` that `Generate` passes to `c.cli.Generate`. -/
def Generate (h : Heap) (inp : List Ptr) : List Ptr :=
  GenerateLoop h inp inp.length []

/-- The loop `for i := len(in) - 1; i >= 0; i--` of `Stream`, which also clears the `Name` of
each message it keeps; the first argument is `i + 1`. -/
def StreamLoop (inp : List Ptr) : Nat → Heap → List Ptr → Heap × List Ptr
  | 0, h, reverse => (h, reverse)
  | i + 1, h, reverse =>
    match inp.get? i with
    | some p =>
      if (h p).content ≠ "" then
        StreamLoop inp i (Function.update h p { h p with name := "" }) (reverse ++ [p])
      else StreamLoop inp i h reverse
    | none => (h, reverse)

/-- The messages after the loop of `Stream` and the slice `reverse` it passes to
`c.cli.Stream`. -/
def Stream (h : Heap) (inp : List Ptr) : Heap × List Ptr :=
  StreamLoop inp inp.length h []

/-! ## Auxiliary definitions used to state the theorems -/

/-- The fragments sent downstream, in order. -/
def sent : List Event → List Message
  | [] => []
  | Event.send m :: evs => m :: sent evs
  | _ :: evs => sent evs

/-- The terminal errors sent downstream, in order. -/
def sentErrs : List Event → List RecvError
  | [] => []
  | Event.sendErr e :: evs => e :: sentErrs evs
  | _ :: evs => sentErrs evs

/-- The number of calls of `Recv`. -/
def recvCount : List Event → Nat
  | [] => 0
  | Event.recv :: evs => recvCount evs + 1
  | _ :: evs => recvCount evs

/-- The loop variable `status` of `process` after the fragments `ms`. -/
def processStatus (mk : Markers) (status : Category) : List Message → Category
  | [] => status
  | m :: ms => processStatus mk (processIter mk status m).1 ms

/-- The events of the iterations of `process` that receive the fragments `ms`. -/
def processEvents (mk : Markers) (status : Category) : List Message → List Event
  | [] => []
  | m :: ms =>
    Event.recv :: ((processIter mk status m).2 ++ processEvents mk (processIter mk status m).1 ms)

/-- The loop variables of `deepThinkProcess` after the fragments `ms`. -/
def deepThinkState (mk : Markers) (st : DeepThinkState) : List Message → DeepThinkState
  | [] => st
  | m :: ms => deepThinkState mk (deepThinkIter mk st m).1 ms

/-- The events of the iterations of `deepThinkProcess` that receive the fragments `ms`. -/
def deepThinkEvents (mk : Markers) (st : DeepThinkState) : List Message → List Event
  | [] => []
  | m :: ms =>
    Event.recv :: ((deepThinkIter mk st m).2 ++ deepThinkEvents mk (deepThinkIter mk st m).1 ms)

/-- Marker literals used in the concrete examples. -/
def sampleMarkers : Markers :=
  { suggestStart := "<suggest>", suggestEnd := "</suggest>",
    thinkStart := "<think>", thinkEnd := "</think>" }

/-- A fragment with the given content, no name and no annotation. -/
def frag (s : String) : Message :=
  { content := s, name := "", contentType := none }

/-- The oracle of a context that is never cancelled. -/
def neverCancelled : Nat → Bool := fun _ => false

/-- Whether the content of a fragment is the suggestion-start or the suggestion-end marker. -/
def isSuggestMarker (mk : Markers) (m : Message) : Bool :=
  m.content == mk.suggestStart || m.content == mk.suggestEnd

/-- The category in effect after the fragments `pre`, as the specification words it: `suggest`
if the most recent marker fragment was suggestion-start, `text` otherwise. -/
def categoryAfter (mk : Markers) (pre : List Message) : Category :=
  match pre.reverse.find? (isSuggestMarker mk) with
  | some m => if m.content = mk.suggestStart then Category.suggest else Category.text
  | none => Category.text

/-- The fragments the specification expects `process` to send for the fragments `ms` received
after the fragments `pre`: the non-marker ones, each annotated with the category in effect. -/
def expectedSent (mk : Markers) : List Message → List Message → List Message
  | _, [] => []
  | pre, m :: ms =>
    if isSuggestMarker mk m then expectedSent mk (pre ++ [m]) ms
    else AddExtra m (categoryAfter mk pre) :: expectedSent mk (pre ++ [m]) ms

/-- The trimming of surrounding whitespace that the specification prescribes before a
fragment is compared with an atomic marker. -/
def trimSpace (s : String) : String :=
  ⟨((s.data.dropWhile Char.isWhitespace).reverse.dropWhile Char.isWhitespace).reverse⟩

/-! ## Lemmas on the event lists -/

theorem sent_append (a b : List Event) : sent (a ++ b) = sent a ++ sent b := by
  induction a with
  | nil => rfl
  | cons x xs ih => cases x <;> simp [sent, ih]

theorem sentErrs_append (a b : List Event) : sentErrs (a ++ b) = sentErrs a ++ sentErrs b := by
  induction a with
  | nil => rfl
  | cons x xs ih => cases x <;> simp [sentErrs, ih]

theorem recvCount_append (a b : List Event) : recvCount (a ++ b) = recvCount a + recvCount b := by
  induction a with
  | nil => simp [recvCount]
  | cons x xs ih => cases x <;> simp [recvCount, ih]; omega

/-! ## Lemmas on `process` -/

theorem processIter_sentErrs (mk : Markers) (status : Category) (m : Message) :
    sentErrs (processIter mk status m).2 = [] := by
  unfold processIter
  split_ifs <;> simp [sentErrs]

theorem processIter_recvCount (mk : Markers) (status : Category) (m : Message) :
    recvCount (processIter mk status m).2 = 0 := by
  unfold processIter
  split_ifs <;> simp [recvCount]

theorem processEvents_sentErrs (mk : Markers) (ms : List Message) :
    ∀ status : Category, sentErrs (processEvents mk status ms) = [] := by
  induction ms with
  | nil => intro status; rfl
  | cons m ms ih =>
    intro status
    simp [processEvents, sentErrs, sentErrs_append, processIter_sentErrs, ih]

theorem processEvents_recvCount (mk : Markers) (ms : List Message) :
    ∀ status : Category, recvCount (processEvents mk status ms) = ms.length := by
  induction ms with
  | nil => intro status; rfl
  | cons m ms ih =>
    intro status
    simp [processEvents, recvCount, recvCount_append, processIter_recvCount, ih]

/-- While no cancellation is observed, the loop of `process` runs one iteration per fragment. -/
theorem processLoop_append (mk : Markers) (cancel : Nat → Bool) (post : List Message)
    (e : RecvError) :
    ∀ (pre : List Message) (i : Nat) (status : Category),
      (∀ j, j < pre.length → cancel (i + j) = false) →
      processLoop mk cancel i status (pre ++ post) e =
        processEvents mk status pre ++
          processLoop mk cancel (i + pre.length) (processStatus mk status pre) post e := by
  intro pre
  induction pre with
  | nil => intro i status _; simp [processEvents, processStatus]
  | cons m ms ih =>
    intro i status h
    have h0 : cancel i = false := by simpa using h 0 (by simp)
    have hrest : ∀ j, j < ms.length → cancel (i + 1 + j) = false := by
      intro j hj
      have := h (j + 1) (by simpa using hj)
      rwa [show i + 1 + j = i + (j + 1) by omega]
    have harith : i + 1 + ms.length = i + (ms.length + 1) := by omega
    simp only [List.cons_append, processLoop, h0, processEvents, processStatus,
      List.length_cons, List.append_eq, Bool.false_eq_true, if_false]
    rw [ih (i + 1) _ hrest, harith]
    simp

theorem processLoop_all (mk : Markers) (cancel : Nat → Bool) (e : RecvError)
    (ms : List Message) (status : Category) (hc : ∀ i, i < ms.length → cancel i = false) :
    processLoop mk cancel 0 status ms e =
      processEvents mk status ms ++
        processLoop mk cancel ms.length (processStatus mk status ms) [] e := by
  have h := processLoop_append mk cancel [] e ms 0 status (by intro j hj; simpa using hc j hj)
  simpa using h

theorem processIter_categoryAfter (mk : Markers) (pre : List Message) (m : Message) :
    (processIter mk (categoryAfter mk pre) m).1 = categoryAfter mk (pre ++ [m]) := by
  unfold processIter categoryAfter
  by_cases h1 : m.content = mk.suggestStart
  · simp [isSuggestMarker, h1]
  · by_cases h2 : m.content = mk.suggestEnd
    · have h3 : ¬ mk.suggestEnd = mk.suggestStart := fun h => h1 (h2.trans h)
      simp [isSuggestMarker, h2, h3]
    · simp [isSuggestMarker, h1, h2]

theorem processEvents_expectedSent (mk : Markers) (ms : List Message) :
    ∀ pre : List Message,
      sent (processEvents mk (categoryAfter mk pre) ms) = expectedSent mk pre ms := by
  induction ms with
  | nil => intro pre; rfl
  | cons m ms ih =>
    intro pre
    simp only [processEvents, expectedSent, sent, sent_append, processIter_categoryAfter, ih]
    unfold processIter
    by_cases h1 : m.content = mk.suggestStart
    · simp [isSuggestMarker, h1, sent]
    · by_cases h2 : m.content = mk.suggestEnd
      · have h3 : ¬ mk.suggestEnd = mk.suggestStart := fun h => h1 (h2.trans h)
        simp [isSuggestMarker, h2, h3, sent]
      · simp [isSuggestMarker, h1, h2, sent]

theorem expectedSent_markerFree (mk : Markers) (ms : List Message) :
    ∀ pre : List Message, (∀ m ∈ pre ++ ms, isSuggestMarker mk m = false) →
      expectedSent mk pre ms = ms.map (fun m => AddExtra m Category.text) := by
  induction ms with
  | nil => intro pre _; rfl
  | cons m ms ih =>
    intro pre h
    have hm : isSuggestMarker mk m = false := h m (by simp)
    have hpre : categoryAfter mk pre = Category.text := by
      unfold categoryAfter
      have : pre.reverse.find? (isSuggestMarker mk) = none := by
        rw [List.find?_eq_none]
        intro x hx
        simp [h x (by simp [List.mem_reverse.mp hx])]
      rw [this]
    have h2 : ∀ x ∈ (pre ++ [m]) ++ ms, isSuggestMarker mk x = false := by
      intro x hx
      exact h x (by simpa using hx)
    simp [expectedSent, hm, hpre, ih (pre ++ [m]) h2]

/-! ## Lemmas on `strings.Trim` -/

theorem dropWhile_append_singleton (p : Char → Bool) (a : Char) (ha : p a = false) :
    ∀ l : List Char, (l ++ [a]).dropWhile p = l.dropWhile p ++ [a] := by
  intro l
  induction l with
  | nil => simp [List.dropWhile, ha]
  | cons x xs ih =>
    by_cases hx : p x = true
    · simp [List.dropWhile, hx, ih]
    · simp [List.dropWhile, hx]

/-- Trimming newlines leaves a text that begins with `<` non-empty. -/
theorem Trim_ne_empty (s : String) (h : beginsWithLt s = true) : Trim s '\n' ≠ "" := by
  obtain ⟨l⟩ := s
  cases l with
  | nil => simp [beginsWithLt] at h
  | cons c r =>
    have hc : c = '<' := by simpa [beginsWithLt] using h
    subst hc
    intro hcontra
    have hdata := congrArg String.data hcontra
    have hdrop := dropWhile_append_singleton (fun x : Char => x == '\n') '<' (by decide) r.reverse
    simp only [Trim, trimLeftByte, trimRightByte, List.reverse_cons] at hdata
    rw [hdrop, List.reverse_append, List.reverse_singleton, List.singleton_append,
      List.dropWhile_cons_of_neg (by decide)] at hdata
    simp at hdata

theorem beginsWithLt_append (a b : String) (h : beginsWithLt a = true) :
    beginsWithLt (a ++ b) = true := by
  obtain ⟨l⟩ := a
  cases l with
  | nil => simp [beginsWithLt] at h
  | cons c r => simpa [beginsWithLt] using h

theorem Trim_empty : Trim "" '\n' = "" := by decide

/-! ## Lemmas on `deepThinkProcess` -/

theorem deepThinkIter_sentErrs (mk : Markers) (st : DeepThinkState) (m : Message) :
    sentErrs (deepThinkIter mk st m).2 = [] := by
  unfold deepThinkIter
  split_ifs <;> simp [sentErrs]

theorem deepThinkIter_recvCount (mk : Markers) (st : DeepThinkState) (m : Message) :
    recvCount (deepThinkIter mk st m).2 = 0 := by
  unfold deepThinkIter
  split_ifs <;> simp [recvCount]

theorem deepThinkEvents_sentErrs (mk : Markers) (ms : List Message) :
    ∀ st : DeepThinkState, sentErrs (deepThinkEvents mk st ms) = [] := by
  induction ms with
  | nil => intro st; rfl
  | cons m ms ih =>
    intro st
    simp [deepThinkEvents, sentErrs, sentErrs_append, deepThinkIter_sentErrs, ih]

theorem deepThinkEvents_recvCount (mk : Markers) (ms : List Message) :
    ∀ st : DeepThinkState, recvCount (deepThinkEvents mk st ms) = ms.length := by
  induction ms with
  | nil => intro st; rfl
  | cons m ms ih =>
    intro st
    simp [deepThinkEvents, recvCount, recvCount_append, deepThinkIter_recvCount, ih]

/-- While no cancellation is observed, the loop of `deepThinkProcess` runs one iteration per
fragment. -/
theorem deepThinkLoop_append (mk : Markers) (cancel : Nat → Bool) (post : List Message)
    (e : RecvError) :
    ∀ (pre : List Message) (i : Nat) (st : DeepThinkState),
      (∀ j, j < pre.length → cancel (i + j) = false) →
      deepThinkLoop mk cancel i st (pre ++ post) e =
        deepThinkEvents mk st pre ++
          deepThinkLoop mk cancel (i + pre.length) (deepThinkState mk st pre) post e := by
  intro pre
  induction pre with
  | nil => intro i st _; simp [deepThinkEvents, deepThinkState]
  | cons m ms ih =>
    intro i st h
    have h0 : cancel i = false := by simpa using h 0 (by simp)
    have hrest : ∀ j, j < ms.length → cancel (i + 1 + j) = false := by
      intro j hj
      have := h (j + 1) (by simpa using hj)
      rwa [show i + 1 + j = i + (j + 1) by omega]
    have harith : i + 1 + ms.length = i + (ms.length + 1) := by omega
    simp only [List.cons_append, deepThinkLoop, h0, deepThinkEvents, deepThinkState,
      List.length_cons, List.append_eq, Bool.false_eq_true, if_false]
    rw [ih (i + 1) _ hrest, harith]
    simp

theorem deepThinkLoop_all (mk : Markers) (cancel : Nat → Bool) (e : RecvError)
    (ms : List Message) (st : DeepThinkState) (hc : ∀ i, i < ms.length → cancel i = false) :
    deepThinkLoop mk cancel 0 st ms e =
      deepThinkEvents mk st ms ++
        deepThinkLoop mk cancel ms.length (deepThinkState mk st ms) [] e := by
  have h := deepThinkLoop_append mk cancel [] e ms 0 st (by intro j hj; simpa using hc j hj)
  simpa using h

theorem deepThinkEvents_append (mk : Markers) (b : List Message) :
    ∀ (a : List Message) (st : DeepThinkState),
      deepThinkEvents mk st (a ++ b) =
        deepThinkEvents mk st a ++ deepThinkEvents mk (deepThinkState mk st a) b := by
  intro a
  induction a with
  | nil => intro st; rfl
  | cons m ms ih => intro st; simp [deepThinkEvents, deepThinkState, ih]

theorem deepThinkState_append (mk : Markers) (b : List Message) :
    ∀ (a : List Message) (st : DeepThinkState),
      deepThinkState mk st (a ++ b) = deepThinkState mk (deepThinkState mk st a) b := by
  intro a
  induction a with
  | nil => intro st; rfl
  | cons m ms ih => intro st; simp [deepThinkState, ih]

/-- Three fragments of which the first begins with `<` are buffered and nothing is sent. -/
theorem deepThinkIter_candidate (mk : Markers) (col : String) (c : Category)
    (f1 f2 f3 : Message) (h1 : beginsWithLt f1.content = true) :
    deepThinkEvents mk ⟨0, col, c⟩ [f1, f2, f3] = [Event.recv, Event.recv, Event.recv] ∧
      deepThinkState mk ⟨0, col, c⟩ [f1, f2, f3] =
        ⟨0, f1.content ++ f2.content ++ f3.content, c⟩ := by
  simp [deepThinkEvents, deepThinkState, deepThinkIter, h1]

theorem deepThinkSwitch_empty (mk : Markers) (c : Category) (hs : mk.thinkStart ≠ "")
    (he : mk.thinkEnd ≠ "") : deepThinkSwitch mk ⟨0, "", c⟩ = ⟨0, "", c⟩ := by
  simp [deepThinkSwitch, Trim_empty, Ne.symm hs, Ne.symm he]

/-- With an empty buffer, fragments that do not begin with `<` are forwarded unchanged. -/
theorem deepThink_plain (mk : Markers) (hs : mk.thinkStart ≠ "") (he : mk.thinkEnd ≠ "")
    (c : Category) :
    ∀ L : List Message, (∀ m ∈ L, beginsWithLt m.content = false) →
      sent (deepThinkEvents mk ⟨0, "", c⟩ L) = L.map (fun m => AddExtra m c) ∧
        deepThinkState mk ⟨0, "", c⟩ L = ⟨0, "", c⟩ := by
  intro L
  induction L with
  | nil => intro _; exact ⟨rfl, rfl⟩
  | cons m ms ih =>
    intro h
    have hm : beginsWithLt m.content = false := h m (by simp)
    have hms := ih (fun x hx => h x (by simp [hx]))
    have hiter : deepThinkIter mk ⟨0, "", c⟩ m = (⟨0, "", c⟩, [Event.send (AddExtra m c)]) := by
      simp [deepThinkIter, hm, deepThinkSwitch_empty mk c hs he]
    simp [deepThinkEvents, deepThinkState, hiter, sent, sent_append, hms.1, hms.2]

/-- A buffer holding a recognised marker is resolved by the first fragment that does not
begin with `<`: the category switches to `c2` and the buffer is cleared. -/
theorem deepThink_resolved (mk : Markers) (hs : mk.thinkStart ≠ "") (he : mk.thinkEnd ≠ "")
    (col : String) (c c2 : Category) (hsw : deepThinkSwitch mk ⟨0, col, c⟩ = ⟨0, "", c2⟩) :
    ∀ L : List Message, (∀ m ∈ L, beginsWithLt m.content = false) →
      sent (deepThinkEvents mk ⟨0, col, c⟩ L) = L.map (fun m => AddExtra m c2) ∧
        (L ≠ [] → deepThinkState mk ⟨0, col, c⟩ L = ⟨0, "", c2⟩) := by
  intro L h
  cases L with
  | nil => exact ⟨rfl, fun hne => absurd rfl hne⟩
  | cons m ms =>
    have hm : beginsWithLt m.content = false := h m (by simp)
    have hms := deepThink_plain mk hs he c2 ms (fun x hx => h x (by simp [hx]))
    have hiter : deepThinkIter mk ⟨0, col, c⟩ m = (⟨0, "", c2⟩, [Event.send (AddExtra m c2)]) := by
      simp [deepThinkIter, hm, hsw]
    refine ⟨?_, fun _ => ?_⟩
    · simp [deepThinkEvents, hiter, sent, sent_append, hms.1]
    · simp [deepThinkState, hiter, hms.2]

theorem deepThinkProcess_sent (mk : Markers) (cancel : Nat → Bool) (up : Upstream)
    (hc : ∀ i, i < up.frags.length → cancel i = false) :
    sent (deepThinkProcess mk cancel up) = sent (deepThinkEvents mk deepThinkInit up.frags) := by
  unfold deepThinkProcess
  rw [deepThinkLoop_all mk cancel up.fail up.frags deepThinkInit hc, sent_append, sent_append]
  unfold deepThinkLoop
  split_ifs <;> simp [sent]

theorem beginsWithLt_ne_empty (s : String) (h : beginsWithLt s = true) : s ≠ "" := by
  intro hs
  subst hs
  simp [beginsWithLt] at h

/-! ## Lemmas on `Generate` and `Stream` -/

theorem take_succ_filter_reverse (q : Ptr → Bool) (inp : List Ptr) (k : Nat) (x : Ptr)
    (hx : inp.get? k = some x) :
    ((inp.take (k + 1)).filter q).reverse =
      (if q x then [x] else []) ++ ((inp.take k).filter q).reverse := by
  have hget : inp[k]? = some x := by simpa using hx
  rw [List.take_succ, hget]
  by_cases hq : q x = true <;> simp [List.filter_append, hq]

theorem GenerateLoop_eq (h : Heap) (inp : List Ptr) :
    ∀ (k : Nat) (acc : List Ptr), k ≤ inp.length →
      GenerateLoop h inp k acc =
        acc ++ ((inp.take k).filter (fun p => decide ((h p).content ≠ ""))).reverse := by
  intro k
  induction k with
  | zero => intro acc _; simp [GenerateLoop]
  | succ k ih =>
    intro acc hk
    have hlt : k < inp.length := hk
    obtain ⟨x, hx⟩ : ∃ x, inp.get? k = some x := ⟨_, List.get?_eq_get hlt⟩
    rw [take_succ_filter_reverse _ inp k _ hx]
    simp only [GenerateLoop, hx]
    by_cases hq : (h x).content = ""
    · simp [hq, ih acc (Nat.le_of_lt hlt)]
    · simp [hq, ih (acc ++ [x]) (Nat.le_of_lt hlt)]

theorem Generate_eq (h : Heap) (inp : List Ptr) :
    Generate h inp = (inp.filter (fun p => decide ((h p).content ≠ ""))).reverse := by
  have := GenerateLoop_eq h inp inp.length [] (Nat.le_refl _)
  simpa [Generate] using this

theorem StreamLoop_eq (h : Heap) (inp : List Ptr) :
    ∀ (k : Nat) (h1 : Heap) (acc : List Ptr), k ≤ inp.length →
      (∀ p, (h1 p).content = (h p).content) →
      (StreamLoop inp k h1 acc).2 =
          acc ++ ((inp.take k).filter (fun p => decide ((h p).content ≠ ""))).reverse ∧
        ∀ p, ((StreamLoop inp k h1 acc).1 p).content = (h p).content := by
  intro k
  induction k with
  | zero => intro h1 acc _ hh; simpa [StreamLoop] using hh
  | succ k ih =>
    intro h1 acc hk hh
    have hlt : k < inp.length := hk
    obtain ⟨x, hx⟩ : ∃ x, inp.get? k = some x := ⟨_, List.get?_eq_get hlt⟩
    rw [take_succ_filter_reverse _ inp k _ hx]
    simp only [StreamLoop, hx]
    by_cases hq : (h x).content = ""
    · have hq1 : (h1 x).content = "" := by rw [hh, hq]
      have := ih h1 acc (Nat.le_of_lt hlt) hh
      simpa [hq, hq1] using this
    · have hq1 : ¬ (h1 x).content = "" := by rw [hh]; exact hq
      have hh2 : ∀ p, ((Function.update h1 x { h1 x with name := "" }) p).content =
          (h p).content := by
        intro p
        by_cases hp : p = x
        · subst hp
          rw [Function.update_same]
          exact hh p
        · rw [Function.update_noteq hp]
          exact hh p
      have := ih _ (acc ++ [x]) (Nat.le_of_lt hlt) hh2
      simpa [hq, hq1] using this

theorem Stream_eq (h h1 : Heap) (inp : List Ptr) (hh : ∀ p, (h1 p).content = (h p).content) :
    (Stream h1 inp).2 = (inp.filter (fun p => decide ((h p).content ≠ ""))).reverse ∧
      ∀ p, ((Stream h1 inp).1 p).content = (h p).content := by
  have := StreamLoop_eq h inp inp.length h1 [] (Nat.le_refl _) hh
  simpa [Stream] using this

/-! ## The plain runner `process` -/

/-- C1: while no cancellation is observed, the fragments `process` sends downstream are the
received fragments whose content is neither suggestion marker, in the order received, content
unchanged, each annotated `suggest` if the most recent marker fragment before it was
suggestion-start and `text` otherwise; so a marker-free input is forwarded fragment by fragment
with the same contents in the same order, annotated `text`. -/
theorem C1_process_forwards_non_markers (mk : Markers) (cancel : Nat → Bool) (up : Upstream)
    (hc : ∀ i, i < up.frags.length → cancel i = false) :
    sent (process mk cancel up) = expectedSent mk [] up.frags ∧
      ((∀ m ∈ up.frags, isSuggestMarker mk m = false) →
        sent (process mk cancel up) = up.frags.map (fun m => AddExtra m Category.text) ∧
        String.join ((sent (process mk cancel up)).map Message.content) =
          String.join (up.frags.map Message.content)) := by
  have hsent : sent (process mk cancel up) = expectedSent mk [] up.frags := by
    have hcat : categoryAfter mk [] = Category.text := rfl
    have hexp := processEvents_expectedSent mk up.frags []
    rw [hcat] at hexp
    unfold process
    rw [processLoop_all mk cancel up.fail up.frags Category.text hc,
      sent_append, sent_append, hexp]
    unfold processLoop
    split_ifs <;> simp [sent]
  refine ⟨hsent, fun hfree => ?_⟩
  have hmap : sent (process mk cancel up) = up.frags.map (fun m => AddExtra m Category.text) := by
    rw [hsent]
    exact expectedSent_markerFree mk up.frags [] (by simpa using hfree)
  refine ⟨hmap, ?_⟩
  rw [hmap, List.map_map]
  rfl

/-- A run of `process` on a plain fragment, the suggestion-start marker and another plain
fragment satisfies the hypothesis of C1 and sends the two plain fragments. -/
theorem C1_process_forwards_non_markers_witness :
    (∀ i, i < 3 → neverCancelled i = false) ∧
      sent (process sampleMarkers neverCancelled
        ⟨[frag "a", frag "<suggest>", frag "b"], RecvError.eof⟩) =
        expectedSent sampleMarkers [] [frag "a", frag "<suggest>", frag "b"] :=
  ⟨fun _ _ => rfl,
    (C1_process_forwards_non_markers sampleMarkers neverCancelled
      ⟨[frag "a", frag "<suggest>", frag "b"], RecvError.eof⟩ (fun _ _ => rfl)).1⟩

/-- C6, as stated, fails: the content `" <suggest>"` equals the suggestion-start literal once
trimmed, yet `process` forwards the fragment and the fragment after it is annotated `text`. -/
theorem C6_untrimmed_marker_is_forwarded :
    trimSpace " <suggest>" = sampleMarkers.suggestStart ∧
      process sampleMarkers neverCancelled ⟨[frag " <suggest>", frag "x"], RecvError.eof⟩ =
        [Event.recv, Event.send ⟨" <suggest>", "", some Category.text⟩,
          Event.recv, Event.send ⟨"x", "", some Category.text⟩,
          Event.recv, Event.sendErr RecvError.eof, Event.writerClose, Event.readerClose] := by
  decide

/-- C6, amended: in `process` a fragment whose content is exactly the suggestion-start
(respectively suggestion-end) literal is not forwarded and the loop goes on with category
`suggest` (respectively `text`); a fragment whose content is neither literal is forwarded
unchanged, annotated with the category in effect, and the category stays as it was. -/
theorem C6_exact_marker_is_consumed (mk : Markers) (cancel : Nat → Bool) (i : Nat)
    (status : Category) (msg : Message) (rest : List Message) (e : RecvError)
    (hd : mk.suggestStart ≠ mk.suggestEnd) (hc : cancel i = false) :
    (msg.content = mk.suggestStart →
      processLoop mk cancel i status (msg :: rest) e =
        Event.recv :: processLoop mk cancel (i + 1) Category.suggest rest e) ∧
    (msg.content = mk.suggestEnd →
      processLoop mk cancel i status (msg :: rest) e =
        Event.recv :: processLoop mk cancel (i + 1) Category.text rest e) ∧
    (msg.content ≠ mk.suggestStart → msg.content ≠ mk.suggestEnd →
      processLoop mk cancel i status (msg :: rest) e =
        Event.recv :: Event.send (AddExtra msg status) ::
          processLoop mk cancel (i + 1) status rest e) := by
  refine ⟨fun h => ?_, fun h => ?_, fun h1 h2 => ?_⟩
  · simp [processLoop, processIter, hc, h]
  · have h3 : ¬ mk.suggestEnd = mk.suggestStart := fun h4 => hd h4.symm
    simp [processLoop, processIter, hc, h, h3]
  · simp [processLoop, processIter, hc, h1, h2]

/-- The amended C6 applied to the sample markers and a suggestion-start fragment. -/
theorem C6_exact_marker_is_consumed_witness :
    sampleMarkers.suggestStart ≠ sampleMarkers.suggestEnd ∧ neverCancelled 0 = false ∧
      processLoop sampleMarkers neverCancelled 0 Category.text
          [frag "<suggest>", frag "x"] RecvError.eof =
        Event.recv :: processLoop sampleMarkers neverCancelled (0 + 1) Category.suggest
          [frag "x"] RecvError.eof :=
  ⟨by decide, rfl,
    (C6_exact_marker_is_consumed sampleMarkers neverCancelled 0 Category.text
      (frag "<suggest>") [frag "x"] RecvError.eof (by decide) rfl).1 rfl⟩

/-! ## Termination of the runners -/

/-- C7: when no cancellation is observed and `Recv` fails with `up.fail` after the fragments of
the upstream, each runner ends with the failed `Recv`, one `Send(nil, up.fail)`, and the two
deferred closes; before that it has sent no terminal error and has received once per fragment. -/
theorem C7_receive_failure_is_forwarded_once (mk : Markers) (cancel : Nat → Bool)
    (up : Upstream) (hc : ∀ i, i ≤ up.frags.length → cancel i = false) :
    (∃ evs, process mk cancel up =
        evs ++ [Event.recv, Event.sendErr up.fail, Event.writerClose, Event.readerClose] ∧
        sentErrs evs = [] ∧ recvCount evs = up.frags.length) ∧
    (∃ evs, deepThinkProcess mk cancel up =
        evs ++ [Event.recv, Event.sendErr up.fail, Event.writerClose, Event.readerClose] ∧
        sentErrs evs = [] ∧ recvCount evs = up.frags.length) := by
  have hlt : ∀ i, i < up.frags.length → cancel i = false := fun i hi => hc i (Nat.le_of_lt hi)
  have hlast : cancel up.frags.length = false := hc _ (Nat.le_refl _)
  constructor
  · refine ⟨processEvents mk Category.text up.frags, ?_, processEvents_sentErrs mk _ _,
      processEvents_recvCount mk _ _⟩
    unfold process
    rw [processLoop_all mk cancel up.fail up.frags Category.text hlt]
    simp [processLoop, hlast]
  · refine ⟨deepThinkEvents mk deepThinkInit up.frags, ?_, deepThinkEvents_sentErrs mk _ _,
      deepThinkEvents_recvCount mk _ _⟩
    unfold deepThinkProcess
    rw [deepThinkLoop_all mk cancel up.fail up.frags deepThinkInit hlt]
    simp [deepThinkLoop, hlast]

/-- C7 applied to an upstream of two fragments that then fails with a non-EOF error. -/
theorem C7_receive_failure_is_forwarded_once_witness :
    (∀ i, i ≤ 2 → neverCancelled i = false) ∧
    ((∃ evs, process sampleMarkers neverCancelled
          ⟨[frag "a", frag "b"], RecvError.other "reset"⟩ =
        evs ++ [Event.recv, Event.sendErr (RecvError.other "reset"), Event.writerClose,
          Event.readerClose] ∧
        sentErrs evs = [] ∧ recvCount evs = 2) ∧
    (∃ evs, deepThinkProcess sampleMarkers neverCancelled
          ⟨[frag "a", frag "b"], RecvError.other "reset"⟩ =
        evs ++ [Event.recv, Event.sendErr (RecvError.other "reset"), Event.writerClose,
          Event.readerClose] ∧
        sentErrs evs = [] ∧ recvCount evs = 2)) :=
  ⟨fun _ _ => rfl,
    C7_receive_failure_is_forwarded_once sampleMarkers neverCancelled
      ⟨[frag "a", frag "b"], RecvError.other "reset"⟩ (fun _ _ => rfl)⟩

/-- C8: if cancellation is observed at the start of the iteration that follows the fragments
`pre` (and not before), each runner stops there: its events are those of the iterations that
received `pre`, then the two deferred closes; it performs exactly one `Recv` per fragment of
`pre`, none for `post`, and sends no terminal error.  With `pre` empty it only closes. -/
theorem C8_cancellation_stops_silently (mk : Markers) (cancel : Nat → Bool)
    (pre post : List Message) (e : RecvError)
    (hpre : ∀ i, i < pre.length → cancel i = false) (hc : cancel pre.length = true) :
    (process mk cancel ⟨pre ++ post, e⟩ =
        processEvents mk Category.text pre ++ [Event.writerClose, Event.readerClose] ∧
      sentErrs (process mk cancel ⟨pre ++ post, e⟩) = [] ∧
      recvCount (process mk cancel ⟨pre ++ post, e⟩) = pre.length) ∧
    (deepThinkProcess mk cancel ⟨pre ++ post, e⟩ =
        deepThinkEvents mk deepThinkInit pre ++ [Event.writerClose, Event.readerClose] ∧
      sentErrs (deepThinkProcess mk cancel ⟨pre ++ post, e⟩) = [] ∧
      recvCount (deepThinkProcess mk cancel ⟨pre ++ post, e⟩) = pre.length) ∧
    (pre = [] →
      process mk cancel ⟨pre ++ post, e⟩ = [Event.writerClose, Event.readerClose] ∧
      deepThinkProcess mk cancel ⟨pre ++ post, e⟩ =
        [Event.writerClose, Event.readerClose]) := by
  have hstopP : ∀ status, processLoop mk cancel (0 + pre.length) status post e = [] := by
    intro status
    cases post <;> simp [processLoop, hc]
  have hstopD : ∀ st, deepThinkLoop mk cancel (0 + pre.length) st post e = [] := by
    intro st
    cases post <;> simp [deepThinkLoop, hc]
  have hP : process mk cancel ⟨pre ++ post, e⟩ =
      processEvents mk Category.text pre ++ [Event.writerClose, Event.readerClose] := by
    unfold process
    simp only []
    rw [processLoop_append mk cancel post e pre 0 Category.text
      (by intro j hj; simpa using hpre j hj), hstopP]
    simp
  have hD : deepThinkProcess mk cancel ⟨pre ++ post, e⟩ =
      deepThinkEvents mk deepThinkInit pre ++ [Event.writerClose, Event.readerClose] := by
    unfold deepThinkProcess
    simp only []
    rw [deepThinkLoop_append mk cancel post e pre 0 deepThinkInit
      (by intro j hj; simpa using hpre j hj), hstopD]
    simp
  refine ⟨⟨hP, ?_, ?_⟩, ⟨hD, ?_, ?_⟩, fun hnil => ?_⟩
  · rw [hP, sentErrs_append, processEvents_sentErrs]; rfl
  · rw [hP, recvCount_append, processEvents_recvCount]; rfl
  · rw [hD, sentErrs_append, deepThinkEvents_sentErrs]; rfl
  · rw [hD, recvCount_append, deepThinkEvents_recvCount]; rfl
  · rw [hP, hD]
    subst hnil
    exact ⟨rfl, rfl⟩

/-- C8 applied to a context cancelled after the first fragment has been handled: the second
fragment is never received and no terminal error is sent. -/
theorem C8_cancellation_stops_silently_witness :
    (fun i : Nat => decide (i = 1)) ([frag "a"] : List Message).length = true ∧
      process sampleMarkers (fun i => decide (i = 1))
          ⟨[frag "a"] ++ [frag "b"], RecvError.eof⟩ =
        processEvents sampleMarkers Category.text [frag "a"] ++
          [Event.writerClose, Event.readerClose] ∧
      sentErrs (process sampleMarkers (fun i => decide (i = 1))
          ⟨[frag "a"] ++ [frag "b"], RecvError.eof⟩) = [] ∧
      recvCount (process sampleMarkers (fun i => decide (i = 1))
          ⟨[frag "a"] ++ [frag "b"], RecvError.eof⟩) = ([frag "a"] : List Message).length :=
  ⟨rfl,
    (C8_cancellation_stops_silently sampleMarkers (fun i => decide (i = 1)) [frag "a"]
      [frag "b"] RecvError.eof
      (fun i hi => by
        have h0 : i = 0 := Nat.lt_one_iff.mp hi
        subst h0
        rfl)
      rfl).1⟩

/-! ## The reasoning-aware runner `deepThinkProcess` -/

/-- C9: on a stream `P ++ [o1, o2, o3] ++ T ++ [c1, c2, c3] ++ Q` in which no fragment of `P`,
`T`, `Q` begins with `<`, `o1` and `c1` begin with `<`, and the two triples, concatenated and
trimmed of newlines, are the reasoning-start and the (distinct) reasoning-end literal,
`deepThinkProcess` sends exactly the fragments of `P`, `T` and `Q`, in order and with their
content unchanged, annotated `text`, `think` and `text`. -/
theorem C9_think_block_is_reclassified (mk : Markers) (cancel : Nat → Bool)
    (P T Q : List Message) (o1 o2 o3 c1 c2 c3 : Message) (e : RecvError)
    (hc : ∀ i, i < (P ++ [o1, o2, o3] ++ T ++ [c1, c2, c3] ++ Q).length → cancel i = false)
    (hP : ∀ m ∈ P, beginsWithLt m.content = false)
    (hT : ∀ m ∈ T, beginsWithLt m.content = false)
    (hQ : ∀ m ∈ Q, beginsWithLt m.content = false)
    (ho : beginsWithLt o1.content = true) (hcl : beginsWithLt c1.content = true)
    (hopen : Trim (o1.content ++ o2.content ++ o3.content) '\n' = mk.thinkStart)
    (hclose : Trim (c1.content ++ c2.content ++ c3.content) '\n' = mk.thinkEnd)
    (hne : mk.thinkStart ≠ mk.thinkEnd) :
    sent (deepThinkProcess mk cancel ⟨P ++ [o1, o2, o3] ++ T ++ [c1, c2, c3] ++ Q, e⟩) =
      P.map (fun m => AddExtra m Category.text) ++ T.map (fun m => AddExtra m Category.think) ++
        Q.map (fun m => AddExtra m Category.text) := by
  have hs : mk.thinkStart ≠ "" := by
    rw [← hopen]
    exact Trim_ne_empty _ (beginsWithLt_append _ _ (beginsWithLt_append _ _ ho))
  have he : mk.thinkEnd ≠ "" := by
    rw [← hclose]
    exact Trim_ne_empty _ (beginsWithLt_append _ _ (beginsWithLt_append _ _ hcl))
  -- the fragments of `P`
  have hA := deepThink_plain mk hs he Category.text P hP
  -- the reasoning-start triple
  have hB := deepThinkIter_candidate mk "" Category.text o1 o2 o3 ho
  -- the fragments of `T`
  have hswO : deepThinkSwitch mk ⟨0, o1.content ++ o2.content ++ o3.content, Category.text⟩ =
      ⟨0, "", Category.think⟩ := by
    simp [deepThinkSwitch, hopen]
  have hC := deepThink_resolved mk hs he _ Category.text Category.think hswO T hT
  have hCstate : ∃ col c, deepThinkState mk
      ⟨0, o1.content ++ o2.content ++ o3.content, Category.text⟩ T = ⟨0, col, c⟩ := by
    by_cases hTnil : T = []
    · subst hTnil
      exact ⟨_, _, rfl⟩
    · exact ⟨_, _, hC.2 hTnil⟩
  obtain ⟨col, c, hCst⟩ := hCstate
  -- the reasoning-end triple
  have hD := deepThinkIter_candidate mk col c c1 c2 c3 hcl
  -- the fragments of `Q`
  have hswC : deepThinkSwitch mk ⟨0, c1.content ++ c2.content ++ c3.content, c⟩ =
      ⟨0, "", Category.text⟩ := by
    have h1 : ¬ mk.thinkEnd = mk.thinkStart := fun h => hne h.symm
    simp [deepThinkSwitch, hclose, h1]
  have hE := deepThink_resolved mk hs he _ c Category.text hswC Q hQ
  rw [deepThinkProcess_sent mk cancel _ hc]
  simp only [deepThinkEvents_append, deepThinkState_append, sent_append, deepThinkInit]
  rw [hA.2, hB.2, hCst, hD.2, hA.1, hB.1, hC.1, hD.1, hE.1]
  simp [sent]

/-- C9 applied to a stream with one fragment before, one inside and one after a reasoning
block whose opening triple ends in a newline. -/
theorem C9_think_block_is_reclassified_witness :
    sent (deepThinkProcess sampleMarkers neverCancelled
      ⟨[frag "p"] ++ [frag "<", frag "think", frag ">\n"] ++ [frag "t"] ++
        [frag "</", frag "think", frag ">"] ++ [frag "q"], RecvError.eof⟩) =
      [frag "p"].map (fun m => AddExtra m Category.text) ++
        [frag "t"].map (fun m => AddExtra m Category.think) ++
        [frag "q"].map (fun m => AddExtra m Category.text) :=
  C9_think_block_is_reclassified sampleMarkers neverCancelled [frag "p"] [frag "t"] [frag "q"]
    (frag "<") (frag "think") (frag ">\n") (frag "</") (frag "think") (frag ">") RecvError.eof
    (fun _ _ => rfl) (by decide) (by decide) (by decide) (by decide) (by decide) (by decide)
    (by decide) (by decide)

/-- C2, at a failing input: after the fragments `<`, `think`, `>` (whose concatenation is the
reasoning-start literal) the next fragment `<a` begins with `<`, so the buffer holding the
recognised marker is overwritten before it is examined; the content forwarded afterwards,
`<abcd`, is annotated `text`, not `think`. -/
theorem C2_start_marker_lost_before_new_candidate :
    beginsWithLt "<" = true ∧
      Trim ("<" ++ "think" ++ ">") '\n' = sampleMarkers.thinkStart ∧
      deepThinkProcess sampleMarkers neverCancelled
          ⟨[frag "<", frag "think", frag ">", frag "<a", frag "b", frag "c", frag "d"],
            RecvError.eof⟩ =
        [Event.recv, Event.recv, Event.recv, Event.recv, Event.recv, Event.recv, Event.recv,
          Event.send ⟨"<abcd", "", some Category.text⟩,
          Event.recv, Event.sendErr RecvError.eof, Event.writerClose, Event.readerClose] := by
  decide

/-- C3, as stated, fails: when the stream ends right after the mismatched fragments `<`, `x`,
`>`, their text is not delivered; only the terminal error is sent. -/
theorem C3_mismatch_lost_at_end_of_stream :
    beginsWithLt "<" = true ∧
      Trim ("<" ++ "x" ++ ">") '\n' ≠ sampleMarkers.thinkStart ∧
      Trim ("<" ++ "x" ++ ">") '\n' ≠ sampleMarkers.thinkEnd ∧
      deepThinkProcess sampleMarkers neverCancelled
          ⟨[frag "<", frag "x", frag ">"], RecvError.eof⟩ =
        [Event.recv, Event.recv, Event.recv, Event.recv, Event.sendErr RecvError.eof,
          Event.writerClose, Event.readerClose] := by
  decide

/-- C3, amended: with no candidate open, three fragments of which the first begins with `<`
and whose concatenation, trimmed of newlines, is neither reasoning literal are buffered; if
the next fragment does not begin with `<`, one fragment is sent whose content is their
concatenated text followed by the content of that fragment, annotated with the category `c`
that was in effect, and the loop goes on with the same category; if the stream ends right
after the three fragments, only the terminal error is sent. -/
theorem C3_mismatch_is_merged_into_next (mk : Markers) (cancel : Nat → Bool) (i : Nat)
    (st : DeepThinkState) (f1 f2 f3 : Message) (e : RecvError)
    (hpass : st.pass = 0) (h1 : beginsWithLt f1.content = true)
    (hs : Trim (f1.content ++ f2.content ++ f3.content) '\n' ≠ mk.thinkStart)
    (he : Trim (f1.content ++ f2.content ++ f3.content) '\n' ≠ mk.thinkEnd)
    (hc : ∀ j, j ≤ 3 → cancel (i + j) = false) :
    (∀ (m : Message) (rest : List Message), beginsWithLt m.content = false →
      ∃ st1 : DeepThinkState, st1.status = st.status ∧
        deepThinkLoop mk cancel i st (f1 :: f2 :: f3 :: m :: rest) e =
          [Event.recv, Event.recv, Event.recv, Event.recv,
            Event.send (AddExtra
              { m with content := f1.content ++ f2.content ++ f3.content ++ m.content }
              st.status)] ++
            deepThinkLoop mk cancel (i + 4) st1 rest e) ∧
      deepThinkLoop mk cancel i st [f1, f2, f3] e =
        [Event.recv, Event.recv, Event.recv, Event.recv, Event.sendErr e] := by
  obtain ⟨p, col, c⟩ := st
  simp only at hpass
  subst hpass
  have hc0 : cancel i = false := by simpa using hc 0 (by omega)
  have hc1 : cancel (i + 1) = false := hc 1 (by omega)
  have hc2 : cancel (i + 1 + 1) = false := hc 2 (by omega)
  have hc3 : cancel (i + 1 + 1 + 1) = false := hc 3 (by omega)
  have hne : f1.content ++ f2.content ++ f3.content ≠ "" :=
    beginsWithLt_ne_empty _ (beginsWithLt_append _ _ (beginsWithLt_append _ _ h1))
  constructor
  · intro m rest hm
    refine ⟨⟨0, f1.content ++ f2.content ++ f3.content, c⟩, rfl, ?_⟩
    simp [deepThinkLoop, deepThinkIter, deepThinkSwitch, hc0, hc1, hc2, hc3, h1, hm, hs, he, hne]
  · simp [deepThinkLoop, deepThinkIter, hc0, hc1, hc2, hc3, h1]

/-- The amended C3 applied to the fragments `<`, `x`, `>` followed by `a`. -/
theorem C3_mismatch_is_merged_into_next_witness :
    deepThinkLoop sampleMarkers neverCancelled 0 deepThinkInit
        [frag "<", frag "x", frag ">"] RecvError.eof =
      [Event.recv, Event.recv, Event.recv, Event.recv, Event.sendErr RecvError.eof] ∧
    ∃ st1 : DeepThinkState, st1.status = deepThinkInit.status ∧
      deepThinkLoop sampleMarkers neverCancelled 0 deepThinkInit
          (frag "<" :: frag "x" :: frag ">" :: frag "a" :: []) RecvError.eof =
        [Event.recv, Event.recv, Event.recv, Event.recv,
          Event.send (AddExtra
            { frag "a" with
              content := (frag "<").content ++ (frag "x").content ++ (frag ">").content ++
                (frag "a").content }
            deepThinkInit.status)] ++
          deepThinkLoop sampleMarkers neverCancelled (0 + 4) st1 [] RecvError.eof :=
  ⟨(C3_mismatch_is_merged_into_next sampleMarkers neverCancelled 0 deepThinkInit
      (frag "<") (frag "x") (frag ">") RecvError.eof rfl (by decide) (by decide) (by decide)
      (fun _ _ => rfl)).2,
    (C3_mismatch_is_merged_into_next sampleMarkers neverCancelled 0 deepThinkInit
      (frag "<") (frag "x") (frag ">") RecvError.eof rfl (by decide) (by decide) (by decide)
      (fun _ _ => rfl)).1 (frag "a") [] (by decide)⟩

/-- C4, as stated, fails: the upstream ends after the single fragment `<`, which has opened a
candidate; the runner sends the terminal error and closes, and the buffered `<` is never
sent. -/
theorem C4_buffered_fragment_not_flushed :
    deepThinkState sampleMarkers deepThinkInit [frag "<"] = ⟨2, "<", Category.text⟩ ∧
      deepThinkProcess sampleMarkers neverCancelled ⟨[frag "<"], RecvError.eof⟩ =
        [Event.recv, Event.recv, Event.sendErr RecvError.eof, Event.writerClose,
          Event.readerClose] := by
  decide

/-- C4, amended: if `Recv` fails right after a fragment `f` that opened a candidate (no
candidate was open before it and its content begins with `<`), the runner sends only the
terminal error and closes; what it has sent downstream is what it would have sent had `f`
not been received. -/
theorem C4_buffered_text_is_dropped_at_end (mk : Markers) (cancel : Nat → Bool)
    (pre : List Message) (f : Message) (e : RecvError)
    (hc : ∀ i, i ≤ pre.length + 1 → cancel i = false)
    (hpass : (deepThinkState mk deepThinkInit pre).pass = 0)
    (h1 : beginsWithLt f.content = true) :
    deepThinkProcess mk cancel ⟨pre ++ [f], e⟩ =
        deepThinkEvents mk deepThinkInit pre ++
          [Event.recv, Event.recv, Event.sendErr e, Event.writerClose, Event.readerClose] ∧
      sent (deepThinkProcess mk cancel ⟨pre ++ [f], e⟩) =
        sent (deepThinkProcess mk cancel ⟨pre, e⟩) := by
  have hpre : ∀ j, j < pre.length → cancel (0 + j) = false := by
    intro j hj
    simpa using hc j (by omega)
  have hc0 : cancel pre.length = false := hc pre.length (by omega)
  have hc1 : cancel (pre.length + 1) = false := hc (pre.length + 1) (by omega)
  have hiter : (deepThinkIter mk (deepThinkState mk deepThinkInit pre) f).2 = [] := by
    simp [deepThinkIter, hpass, h1]
  have hrun : deepThinkProcess mk cancel ⟨pre ++ [f], e⟩ =
      deepThinkEvents mk deepThinkInit pre ++
        [Event.recv, Event.recv, Event.sendErr e, Event.writerClose, Event.readerClose] := by
    unfold deepThinkProcess
    simp only []
    rw [deepThinkLoop_append mk cancel [f] e pre 0 deepThinkInit hpre]
    simp [deepThinkLoop, hc0, hc1, hiter]
  refine ⟨hrun, ?_⟩
  rw [hrun, deepThinkProcess_sent mk cancel ⟨pre, e⟩ (fun i hi => hc i (by simp at hi; omega)),
    sent_append]
  simp [sent]

/-- The amended C4 applied to a plain fragment followed by a fragment `<` and the end of the
stream. -/
theorem C4_buffered_text_is_dropped_at_end_witness :
    deepThinkProcess sampleMarkers neverCancelled ⟨[frag "a"] ++ [frag "<"], RecvError.eof⟩ =
        deepThinkEvents sampleMarkers deepThinkInit [frag "a"] ++
          [Event.recv, Event.recv, Event.sendErr RecvError.eof, Event.writerClose,
            Event.readerClose] ∧
      sent (deepThinkProcess sampleMarkers neverCancelled
          ⟨[frag "a"] ++ [frag "<"], RecvError.eof⟩) =
        sent (deepThinkProcess sampleMarkers neverCancelled ⟨[frag "a"], RecvError.eof⟩) :=
  C4_buffered_text_is_dropped_at_end sampleMarkers neverCancelled [frag "a"] (frag "<")
    RecvError.eof (fun _ _ => rfl) (by decide) (by decide)

/-- C5, at a failing input: after the mismatched candidate `<`, `x`, `>` has been forwarded in
front of `a`, the buffer still holds `<x>`, and the later fragment `b` is forwarded as `<x>b`:
the buffered text reaches the output twice. -/
theorem C5_buffer_survives_mismatch :
    sent (deepThinkProcess sampleMarkers neverCancelled
        ⟨[frag "<", frag "x", frag ">", frag "a", frag "b"], RecvError.eof⟩) =
      [⟨"<x>a", "", some Category.text⟩, ⟨"<x>b", "", some Category.text⟩] ∧
    deepThinkState sampleMarkers deepThinkInit [frag "<", frag "x", frag ">", frag "a"] =
      ⟨0, "<x>", Category.text⟩ := by
  decide

/-! ## `Generate` and `Stream` -/

/-- C10: the slice `Generate` and `Stream` hand to the client holds exactly the input messages
whose content is non-empty, in the reverse of the input order; no message with empty content
is passed; and on an input without empty messages, transforming twice gives back the input. -/
theorem C10_client_gets_reversed_non_empty (h : Heap) (inp : List Ptr) :
    Generate h inp = (inp.filter (fun p => decide ((h p).content ≠ ""))).reverse ∧
    (Stream h inp).2 = (inp.filter (fun p => decide ((h p).content ≠ ""))).reverse ∧
    (∀ p, ((Stream h inp).1 p).content = (h p).content) ∧
    (∀ p ∈ Generate h inp, (h p).content ≠ "") ∧
    (∀ p ∈ (Stream h inp).2, ((Stream h inp).1 p).content ≠ "") ∧
    ((∀ p ∈ inp, (h p).content ≠ "") →
      Generate h (Generate h inp) = inp ∧
      (Stream (Stream h inp).1 (Stream h inp).2).2 = inp) := by
  have hG := Generate_eq h inp
  have hS := Stream_eq h h inp (fun _ => rfl)
  refine ⟨hG, hS.1, hS.2, ?_, ?_, ?_⟩
  · intro p hp
    rw [hG] at hp
    simpa using (List.mem_filter.mp (List.mem_reverse.mp hp)).2
  · intro p hp
    rw [hS.1] at hp
    rw [hS.2]
    simpa using (List.mem_filter.mp (List.mem_reverse.mp hp)).2
  · intro hall
    have hfilter : inp.filter (fun p => decide ((h p).content ≠ "")) = inp := by
      rw [List.filter_eq_self]
      intro p hp
      simpa using hall p hp
    have hfilterR : inp.reverse.filter (fun p => decide ((h p).content ≠ "")) =
        inp.reverse := by
      rw [List.filter_eq_self]
      intro p hp
      simpa using hall p (List.mem_reverse.mp hp)
    constructor
    · rw [hG, hfilter, Generate_eq, hfilterR, List.reverse_reverse]
    · rw [(Stream_eq h (Stream h inp).1 (Stream h inp).2 hS.2).1, hS.1, hfilter, hfilterR,
        List.reverse_reverse]

/-- C10 applied to three messages of which the second is empty, and, for the round trip, to
two non-empty messages. -/
theorem C10_client_gets_reversed_non_empty_witness :
    Generate (fun p => if p = 1 then frag "" else ⟨"x", "bob", none⟩) [0, 1, 2] =
        ([0, 1, 2].filter (fun p =>
          decide (((fun p => if p = 1 then frag "" else ⟨"x", "bob", none⟩ : Heap) p).content
            ≠ ""))).reverse ∧
      Generate (fun _ => frag "x") (Generate (fun _ => frag "x") [0, 1]) = [0, 1] :=
  ⟨(C10_client_gets_reversed_non_empty
      (fun p => if p = 1 then frag "" else ⟨"x", "bob", none⟩) [0, 1, 2]).1,
    ((C10_client_gets_reversed_non_empty (fun _ => frag "x") [0, 1]).2.2.2.2.2
      (fun _ _ => by decide)).1⟩

end Innospark
